import Mathlib

/-!
Verification of the ACOEM wire-protocol codecs of the NE-300 nephelometer
driver (`mkndaq/inst/neph.py`): message framing, XOR checksum, bit-packed
timestamp codec, response decoding, logged-data record decoding, the
transport read loops and the protocol-variant dispatch of
`set_values` / `get_current_operation`.

Python `bytes` values are modelled as `List Nat` of byte values; fallible
Python code (raising exceptions) is modelled with `Option`, where `none`
stands for an exception escaping the modelled function.
-/

namespace Neph

/-- Python `bytes` as a list of byte values (each in 0..255). -/
abbrev Bytes := List Nat

/-- `int.from_bytes(l)` with big-endian byte order (the Python default used
throughout the driver).  The empty slice gives 0. -/
def fromBytesBE (l : Bytes) : Nat :=
  l.foldl (fun acc b => acc * 256 + b) 0

/-- Big-endian byte expansion of `v` into exactly `k` bytes (the value of a
successful Python `(v).to_bytes(k)`); the most significant bytes come
first. -/
def toBytesBE : Nat → Nat → Bytes
  | 0, _ => []
  | k + 1, v => toBytesBE k (v / 256) ++ [v % 256]

/-- Python `(v).to_bytes(k)`: raises `OverflowError` (modelled as `none`)
when `v` does not fit in `k` bytes. -/
def to_bytes (k v : Nat) : Option Bytes :=
  if v < 256 ^ k then some (toBytesBE k v) else none

/-- Python `bytes([...])`: raises `ValueError` (modelled as `none`) when any
entry is outside 0..255. -/
def byteSeq (l : List Nat) : Option Bytes :=
  if l.all (fun b => b < 256) then some l else none

/-- Python slice `l[a:b]` for nonnegative bounds: elements at indices
`a, a+1, ..., b-1`, clamped to the list; never raises. -/
def pySlice (l : Bytes) (a b : Nat) : Bytes :=
  (l.drop a).take (b - a)

/-- Python `range(start, stop, step)` for a positive step. -/
def rangeStep (start stop step : Nat) : List Nat :=
  (List.range ((stop - start + step - 1) / step)).map (fun k => start + k * step)

/-- `NEPH._checksum`: XOR of all bytes of the input, left to right, with
accumulator starting at 0 (Aurora NE manual A.1). -/
def checksum (x : Bytes) : Nat :=
  x.foldl (fun cs b => Nat.xor cs b) 0

/-- `NEPH._acoem_construct_message`: builds the outbound frame
`[STX, serial_id, command, ETX] ++ msg_len(2B) ++ msg_data ++ checksum ++ [EOT]`
with `msg_data = (parameter_id > 0 ? 4-byte BE parameter_id : empty) ++ payload`.
`bytes([2, serial_id, command, 3])` and the two `to_bytes` calls can raise,
which the method does not catch (modelled as `none`). -/
def acoem_construct_message (serial_id command parameter_id : Nat)
    (payload : Bytes) : Option Bytes :=
  Option.bind (if parameter_id > 0 then to_bytes 4 parameter_id else some [])
    (fun pidBytes =>
      let msg_data := pidBytes ++ payload
      Option.bind (to_bytes 2 msg_data.length) (fun lenBytes =>
        Option.bind (byteSeq [2, serial_id, command, 3]) (fun hd =>
          let msg := hd ++ lenBytes ++ msg_data
          some (msg ++ [checksum msg] ++ [4]))))

/-- The word count read by `_acoem_decode_response`:
`int(int.from_bytes(response[4:6]) / 4)`. -/
def responseLengthOf (response : Bytes) : Nat :=
  fromBytesBE (pySlice response 4 6) / 4

/-- `NEPH._acoem_decode_response`: reads the length field at bytes [4:6),
then collects `int.from_bytes(response[i:i+4])` for
`i in range(6, (length + 1) * 4 + 2, 4)`. -/
def acoem_decode_response (response : Bytes) : List Nat :=
  (rangeStep 6 ((responseLengthOf response + 1) * 4 + 2) 4).map
    (fun i => fromBytesBE (pySlice response i (i + 4)))

/-- A Python `datetime.datetime` value (microseconds unused by the driver). -/
structure PyDateTime where
  year : Nat
  month : Nat
  day : Nat
  hour : Nat
  minute : Nat
  second : Nat
deriving DecidableEq, Repr

/-- Gregorian leap-year rule, as used by Python `datetime`. -/
def isLeapYear (y : Nat) : Bool :=
  y % 4 == 0 && (y % 100 != 0 || y % 400 == 0)

/-- Days in a month, as validated by the Python `datetime` constructor. -/
def daysInMonth (y m : Nat) : Nat :=
  if m = 2 then (if isLeapYear y then 29 else 28)
  else if m = 4 ∨ m = 6 ∨ m = 9 ∨ m = 11 then 30
  else 31

/-- Argument validation of the Python `datetime.datetime` constructor:
outside these bounds it raises `ValueError`. -/
def validDateTime (y mo d h mi s : Nat) : Prop :=
  1 ≤ y ∧ y ≤ 9999 ∧ 1 ≤ mo ∧ mo ≤ 12 ∧ 1 ≤ d ∧ d ≤ daysInMonth y mo ∧
    h ≤ 23 ∧ mi ≤ 59 ∧ s ≤ 59

instance (y mo d h mi s : Nat) : Decidable (validDateTime y mo d h mi s) := by
  unfold validDateTime
  exact inferInstance

/-- `NEPH._acoem_timestamp_to_datetime`: unpacks second(6), minute(6),
hour(5), day(5), month(4) bits from the low end, the rest is year-2000.
A `ValueError` from the `datetime` constructor is caught by the handler,
which returns the sentinel `datetime(1111, 1, 1)`. -/
def acoem_timestamp_to_datetime (timestamp : Nat) : PyDateTime :=
  let SS := timestamp % 64
  let dtm1 := timestamp / 64
  let MM := dtm1 % 64
  let dtm2 := dtm1 / 64
  let HH := dtm2 % 32
  let dtm3 := dtm2 / 32
  let dd := dtm3 % 32
  let dtm4 := dtm3 / 32
  let mm := dtm4 % 16
  let yyyy := dtm4 / 16 + 2000
  if validDateTime yyyy mm dd HH MM SS then ⟨yyyy, mm, dd, HH, MM, SS⟩
  else ⟨1111, 1, 1, 0, 0, 0⟩

/-- Fuel-driven binary digit expansion, most significant digit first. -/
def binDigitsAux : Nat → Nat → List Char
  | 0, _ => []
  | fuel + 1, n =>
    if n = 0 then []
    else binDigitsAux fuel (n / 2) ++ [if n % 2 = 1 then '1' else '0']

/-- Python `bin(n)[2:]` for nonnegative `n`: the binary digits of `n`,
most significant first (`"0"` for 0). -/
def binDigits (n : Nat) : List Char :=
  if n = 0 then ['0'] else binDigitsAux n n

/-- Python `bin(n)` for nonnegative `n`: `'0b'` followed by the digits. -/
def pyBin (n : Nat) : List Char :=
  '0' :: 'b' :: binDigits n

/-- Python `str.zfill(w)` on sign-free strings: left-pad with `'0'` up to
width `w` (no-op when already at least `w` long). -/
def zfill (s : List Char) (w : Nat) : List Char :=
  List.replicate (w - s.length) '0' ++ s

/-- Value of a binary digit character; anything else is invalid. -/
def binDigitVal : Char → Option Nat
  | '0' => some 0
  | '1' => some 1
  | _ => none

/-- Left-to-right accumulation of binary digits; `none` on the first
non-digit character (Python `ValueError`). -/
def parseBinCore : List Char → Nat → Option Nat
  | [], acc => some acc
  | c :: cs, acc =>
    match binDigitVal c with
    | some d => parseBinCore cs (2 * acc + d)
    | none => none

/-- Python `int(s, base=2)` on the strings built by the timestamp encoder:
an optional leading `'0b'` prefix, then at least one binary digit;
any other character raises `ValueError` (modelled as `none`). -/
def int_base2 (s : List Char) : Option Nat :=
  match s with
  | '0' :: 'b' :: rest => if rest.isEmpty then none else parseBinCore rest 0
  | [] => none
  | _ => parseBinCore s 0

/-- `NEPH._acoem_datetime_to_timestamp`: builds the bit string
`yyyy ++ mm ++ dd ++ HH ++ MM ++ SS` and parses it with `int(_, base=2)`.
The five time fields use `bin(x)[2:].zfill(w)`, but the year field is
`bin(year - 2000).zfill(6)` - the `'0b'` prefix is NOT stripped, so for
year offsets below 8 the padded string is not parseable and `int` raises
`ValueError`; the handler returns `b''`.  For `year < 2000` the Python
value is negative and `to_bytes` raises `OverflowError`, again giving
`b''`; likewise when the packed value exceeds 32 bits. -/
def acoem_datetime_to_timestamp (dtm : PyDateTime) : Bytes :=
  if dtm.year < 2000 then []
  else
    let SS := zfill (binDigits dtm.second) 6
    let MM := zfill (binDigits dtm.minute) 6
    let HH := zfill (binDigits dtm.hour) 5
    let dd := zfill (binDigits dtm.day) 5
    let mm := zfill (binDigits dtm.month) 4
    let yyyy := zfill (pyBin (dtm.year - 2000)) 6
    match int_base2 (yyyy ++ mm ++ dd ++ HH ++ MM ++ SS) with
    | none => []
    | some v => if v < 2 ^ 32 then toBytesBE 4 v else []

/-- A decoded per-parameter value in a logged data record.  The driver keeps
`struct.unpack('>f', v)[0]` for parameter ids above 1000 (modelled here by
the four raw bytes `bs` of the IEEE-754 float, which determine it) and
replaces every other value by the empty byte string `b''`. -/
inductive PyVal where
  | bytes (bs : Bytes) : PyVal
  | f32 (bs : Bytes) : PyVal
deriving DecidableEq, Repr

/-- One decoded data record: the Python dict built by
`_acoem_decode_logged_data` (parameter-id keys in dict order, plus the
`'dtm'` entry - kept here as the datetime the driver formats with
`strftime('%Y%m%d%H%M%S')` - and the `'logging_interval'` entry). -/
structure DataRecord where
  fields : List (Nat × PyVal)
  dtm : PyDateTime
  logging_interval : Nat
deriving DecidableEq, Repr

/-- An element of the list returned by `_acoem_decode_logged_data`: either
the initial/fallback empty dict or a decoded data record. -/
inductive OutRec where
  | emptyDict : OutRec
  | dataRec (r : DataRecord) : OutRec
deriving DecidableEq, Repr

/-- Insertion into a Python dict modelled as an association list: an
existing key keeps its position and gets the new value; a new key is
appended. -/
def dictInsert (m : List (Nat × Bytes)) (k : Nat) (v : Bytes) :
    List (Nat × Bytes) :=
  match m with
  | [] => [(k, v)]
  | (k0, v0) :: rest =>
    if k0 = k then (k0, v) :: rest else (k0, v0) :: dictInsert rest k v

/-- Python `dict(zip(keys, values))`: pairs up to the shorter list, inserted
left to right (later duplicates overwrite in place). -/
def dictOfZip (keys : List Nat) (values : List Bytes) : List (Nat × Bytes) :=
  (List.zip keys values).foldl (fun m kv => dictInsert m kv.1 kv.2) []

/-- The per-value rewrite `data[k] = struct.unpack('>f', v)[0] if (k > 1000
and len(v) > 0) else b''`.  `struct.unpack` demands exactly 4 bytes and
raises `struct.error` otherwise (modelled as `none`). -/
def transformValue (k : Nat) (v : Bytes) : Option PyVal :=
  if k > 1000 ∧ v ≠ [] then
    if v.length = 4 then some (PyVal.f32 v) else none
  else some (PyVal.bytes [])

/-- The dict-mutation loop over `data.items()`, in iteration order. -/
def transformFields : List (Nat × Bytes) → Option (List (Nat × PyVal))
  | [] => some []
  | (k, v) :: rest =>
    match transformValue k v with
    | none => none
    | some v1 =>
      match transformFields rest with
      | none => none
      | some rest1 => some ((k, v1) :: rest1)

/-- Key list extracted from a header record (`records[i][0] == 1`):
`number_of_fields` from bytes [12:16), then that many 4-byte big-endian
parameter ids starting at byte 16. -/
def headerKeysOf (rec : Bytes) : List Nat :=
  let number_of_fields := fromBytesBE (pySlice rec 12 16)
  (List.range number_of_fields).map
    (fun j => fromBytesBE (pySlice rec (16 + j * 4) (16 + (j + 1) * 4)))

/-- Decoding of a data record (`records[i][0] == 0`) against the active key
list: raw 4-byte value slots zipped with the keys into a dict, values
rewritten by `transformValue`, then the timestamp from bytes [4:8) and the
logging interval from bytes [8:12). -/
def decodeDataRecordWith (keys : List Nat) (rec : Bytes) :
    Option DataRecord :=
  let number_of_fields := fromBytesBE (pySlice rec 12 16)
  let values := (List.range number_of_fields).map
    (fun j => pySlice rec (16 + j * 4) (16 + (j + 1) * 4))
  match transformFields (dictOfZip keys values) with
  | none => none
  | some fields =>
    some { fields := fields
           dtm := acoem_timestamp_to_datetime (fromBytesBE (pySlice rec 4 8))
           logging_interval := fromBytesBE (pySlice rec 8 12) }

/-- One iteration of the record loop of `_acoem_decode_logged_data`: reads
`records[i][0]` (IndexError on an empty slice escapes the function), updates
the key list on a header record, rebinds `data` on a data record, and leaves
both untouched otherwise.  Returns the updated `(keys, data)` state; the
loop then appends `data` to the output unconditionally. -/
def stepRecord (keys : List Nat) (cur : OutRec) (rec : Bytes) :
    Option (List Nat × OutRec) :=
  match rec[0]? with
  | none => none
  | some rt =>
    let keys1 := if rt = 1 then headerKeysOf rec else keys
    if rt = 0 then
      match decodeDataRecordWith keys1 rec with
      | none => none
      | some r => some (keys1, OutRec.dataRec r)
    else
      some (keys1, cur)

/-- The record loop: state is the active key list and the current `data`
binding (initially the seeded empty dict); every iteration appends the
current `data` to the output. -/
def decodeRecords (keys : List Nat) (cur : OutRec) :
    List Bytes → Option (List OutRec)
  | [] => some []
  | rec :: rest =>
    match stepRecord keys cur rec with
    | none => none
    | some (keys1, cur1) =>
      match decodeRecords keys1 cur1 rest with
      | none => none
      | some tail => some (cur1 :: tail)

/-- `message_length` in 4-byte words: `int(int.from_bytes(response[4:6]) / 4)`. -/
def messageLengthOf (response : Bytes) : Nat :=
  fromBytesBE (pySlice response 4 6) / 4

/-- `response_body = response[6:-2]` (drops the checksum and EOT bytes). -/
def responseBodyOf (response : Bytes) : Bytes :=
  pySlice response 6 (response.length - 2)

/-- `items_per_record = fields_per_record + 4` with `fields_per_record`
read from `response_body[12:16]`. -/
def itemsPerRecordOf (response : Bytes) : Nat :=
  fromBytesBE (pySlice (responseBodyOf response) 12 16) + 4

/-- `number_of_records = message_length // items_per_record`. -/
def numberOfRecordsOf (response : Bytes) : Nat :=
  messageLengthOf response / itemsPerRecordOf response

/-- The record partition
`[response_body[i*items_per_record*4 : (i+1)*(items_per_record*4)-1] for i in range(number_of_records)]`. -/
def recordsOf (response : Bytes) : List Bytes :=
  (List.range (numberOfRecordsOf response)).map
    (fun i => pySlice (responseBodyOf response)
      (i * (itemsPerRecordOf response * 4))
      ((i + 1) * (itemsPerRecordOf response * 4) - 1))

/-- `NEPH._acoem_decode_logged_data`: seeds the output with an empty dict;
for a command-7 response partitions the body into records and runs the
record loop; for any other command byte returns `[dict()]`.  `response[2]`
on a too-short input raises IndexError, which this method does not catch. -/
def acoem_decode_logged_data (response : Bytes) : Option (List OutRec) :=
  match response[2]? with
  | none => none
  | some cmd =>
    if cmd = 7 then
      match decodeRecords [] OutRec.emptyDict (recordsOf response) with
      | none => none
      | some out => some (OutRec.emptyDict :: out)
    else
      some [OutRec.emptyDict]

/-- Key-list evolution over a prefix of the record list, starting from
`keys`: a header record installs its key list, everything else keeps the
current one. -/
def foldKeys (keys : List Nat) (rs : List Bytes) : List Nat :=
  rs.foldl (fun ks r => if r[0]? = some 1 then headerKeysOf r else ks) keys

/-- The key list active after the first `i` records (initial list empty). -/
def activeKeys (rs : List Bytes) : List Nat :=
  foldKeys [] rs

/-- The binary-dialect receive path of `NEPH.tcpip_comm`, as written: the
guard `while not rcvd.endswith(b'\x04')` is checked once for the empty
buffer (always entering the loop), one chunk is received, and the
`return rcvd` statement sits INSIDE the loop body, so the function returns
after the first `recv` no matter how the buffer ends.  `none` models the
no-normal-return outcomes (socket timeout caught by the handler returning
`b''`, or falling off the loop returning Python `None`). -/
def tcpip_comm_acoem (chunks : List Bytes) : Option Bytes :=
  if List.isSuffixOf [4] ([] : Bytes) then none
  else
    match chunks with
    | [] => none
    | c :: _ => some ([] ++ c)

/-- ASCII whitespace, as stripped by `bytes.strip()`. -/
def isPyWhitespace (b : Nat) : Bool :=
  b == 32 || b == 9 || b == 10 || b == 13 || b == 11 || b == 12

/-- Python `bytes.strip()` with no argument: ASCII whitespace removed from
both ends. -/
def pyStrip (l : Bytes) : Bytes :=
  ((l.dropWhile isPyWhitespace).reverse.dropWhile isPyWhitespace).reverse

/-- The legacy-dialect receive loop of `NEPH.tcpip_comm`: keep appending
chunks until the buffer ends with CRLF or CRLF+LF, then return the
whitespace-stripped buffer.  Exhausting the transport without a terminator
blocks until the socket timeout (modelled as `none`). -/
def tcpip_comm_legacy_loop : Bytes → List Bytes → Option Bytes
  | rcvd, chunks =>
    if List.isSuffixOf [13, 10] rcvd ∨ List.isSuffixOf [13, 10, 10] rcvd then
      some (pyStrip rcvd)
    else
      match chunks with
      | [] => none
      | c :: cs => tcpip_comm_legacy_loop (rcvd ++ c) cs

/-- `NEPH.tcpip_comm` for the legacy protocol, starting from an empty
receive buffer. -/
def tcpip_comm_legacy (chunks : List Bytes) : Option Bytes :=
  tcpip_comm_legacy_loop [] chunks

/-- The two mutually exclusive wire dialects of the driver. -/
inductive Protocol where
  | acoem : Protocol
  | legacy : Protocol
deriving DecidableEq, Repr

/-- The frame `NEPH.set_values` builds under the acoem protocol:
`payload = bytes([0, 0, 0, value])` (a `ValueError` for any value outside
0..255, caught by the handler so that no frame is ever sent), then a
command-5 message for the given parameter id. -/
def set_values_message (serial_id parameter_id value : Nat) : Option Bytes :=
  match byteSeq [0, 0, 0, value] with
  | none => none
  | some payload => acoem_construct_message serial_id 5 parameter_id payload

/-- The frame sent by `NEPH.set_values`, by protocol: the legacy branch
raises `Warning("Not implemented.")`, caught by the method's own handler,
so no frame is sent and `[]` is returned to the caller. -/
def set_values_frame (proto : Protocol) (serial_id parameter_id value : Nat) :
    Option Bytes :=
  match proto with
  | Protocol.acoem => set_values_message serial_id parameter_id value
  | Protocol.legacy => none

/-- The legacy response mapping of `NEPH.get_current_operation`:
`{'000': 0, '016': 2, '032': 1}[response]`; an unknown string raises
`KeyError` (modelled as `none`). -/
def legacy_operation_map (response : List Char) : Option Nat :=
  if response = ['0', '0', '0'] then some 0
  else if response = ['0', '1', '6'] then some 2
  else if response = ['0', '3', '2'] then some 1
  else none

/-- The legacy branch of `NEPH.get_current_operation` as seen by the caller:
the `KeyError` for an unmapped response string is caught by the method's
handler, which logs the error and returns 9 (the documented Error state). -/
def get_current_operation_legacy (response : List Char) : Nat :=
  match legacy_operation_map response with
  | some v => v
  | none => 9

/-- A concrete 48-byte command-7 response: one header record announcing a
single field with parameter id read from the truncated slice (7), followed
by one data record stamped 2026-01-02 03:04:05 with logging interval 60. -/
def respHeaderData : Bytes :=
  [2, 5, 7, 3, 0, 40,
   1, 0, 0, 0, 0, 0, 0, 0, 0, 0, 0, 0, 0, 0, 0, 1, 0, 0, 7, 0,
   0, 0, 0, 0, 104, 68, 49, 5, 0, 0, 0, 60, 0, 0, 0, 1, 9, 9, 9, 9,
   0, 4]

/-- The `data` dict decoded from the data record of `respHeaderData`. -/
def recHeaderData : DataRecord :=
  { fields := [(7, PyVal.bytes [])]
    dtm := ⟨2026, 1, 2, 3, 4, 5⟩
    logging_interval := 60 }

/-- A concrete response whose body is 16 bytes with a zero field count:
`message_length = 4`, `items_per_record = 4`, one record. -/
def respOneRecord : Bytes :=
  [0, 0, 0, 0, 0, 16] ++ [1, 2, 3, 4, 5, 6, 7, 8, 9, 10, 11, 12, 0, 0, 0, 0] ++ [0, 0]

/-! ## General lemmas about the byte-level helpers -/

theorem pySlice_getElem? (l : Bytes) (a b j : Nat) :
    (pySlice l a b)[j]? = if j < b - a then l[a + j]? else none := by
  unfold pySlice
  rw [List.getElem?_take]
  split
  · exact List.getElem?_drop l a j
  · rfl

theorem pySlice_congr (r1 r2 : Bytes) (a b : Nat) (hlen : r1.length = r2.length)
    (h : ∀ j, a ≤ j → j < b → j < r1.length → r1[j]? = r2[j]?) :
    pySlice r1 a b = pySlice r2 a b := by
  apply List.ext_getElem?
  intro n
  rw [pySlice_getElem?, pySlice_getElem?]
  split
  · next hn =>
    by_cases hl : a + n < r1.length
    · exact h (a + n) (Nat.le_add_right a n) (by omega) hl
    · rw [List.getElem?_eq_none (by omega), List.getElem?_eq_none (by omega)]
  · rfl

theorem getElem?_eq_some_getD (l : Bytes) (m : Nat) (hm : m < l.length) :
    l[m]? = some (l.getD m 0) := by
  rw [List.getD_eq_getElem?_getD, List.getElem?_eq_getElem hm]
  rfl

theorem pySlice_four (l : Bytes) (a : Nat) (h : a + 4 ≤ l.length) :
    pySlice l a (a + 4) =
      [l.getD a 0, l.getD (a + 1) 0, l.getD (a + 2) 0, l.getD (a + 3) 0] := by
  apply List.ext_getElem?
  intro n
  rw [pySlice_getElem?]
  have h4 : a + 4 - a = 4 := by omega
  rw [h4]
  match n with
  | 0 => simpa using (getElem?_eq_some_getD l a (by omega))
  | 1 => simpa using (getElem?_eq_some_getD l (a + 1) (by omega))
  | 2 => simpa using (getElem?_eq_some_getD l (a + 2) (by omega))
  | 3 => simpa using (getElem?_eq_some_getD l (a + 3) (by omega))
  | n + 4 => simp

theorem fromBytesBE_four (a b c d : Nat) :
    fromBytesBE [a, b, c, d] = a * 16777216 + b * 65536 + c * 256 + d := by
  simp [fromBytesBE, List.foldl]
  ring

theorem toBytesBE_two (v : Nat) : toBytesBE 2 v = [v / 256 % 256, v % 256] := by
  simp [toBytesBE, Nat.div_div_eq_div_mul]

theorem toBytesBE_four_eq (v : Nat) :
    toBytesBE 4 v =
      [v / 16777216 % 256, v / 65536 % 256, v / 256 % 256, v % 256] := by
  simp [toBytesBE, Nat.div_div_eq_div_mul]

theorem toBytesBE_four_small (v : Nat) (h : v < 256) :
    toBytesBE 4 v = [0, 0, 0, v] := by
  rw [toBytesBE_four_eq]
  rw [Nat.div_eq_of_lt (by omega), Nat.div_eq_of_lt (by omega),
    Nat.div_eq_of_lt (by omega), Nat.mod_eq_of_lt h]

theorem recordsOf_length (response : Bytes) :
    (recordsOf response).length = numberOfRecordsOf response := by
  simp [recordsOf]

theorem recordsOf_getElem? (response : Bytes) (i : Nat)
    (hi : i < numberOfRecordsOf response) :
    (recordsOf response)[i]? =
      some (pySlice (responseBodyOf response)
        (i * (itemsPerRecordOf response * 4))
        ((i + 1) * (itemsPerRecordOf response * 4) - 1)) := by
  unfold recordsOf
  rw [List.getElem?_map, List.getElem?_range hi]
  rfl

/-! ## Claim C1 - timestamp round-trip -/

/-- Claim C1: the round-trip `decode(encode(t)) == t` is claimed for every
valid datetime with year in [2000, 2063], but the encoder's year field is
`bin(year - 2000).zfill(6)` without the `[2:]` strip used by every other
field, so for year offsets below 8 (years 2000..2007) the zero-padded
string retains an interior `'b'`, `int(_, base=2)` raises `ValueError`, the
handler returns `b''`, and the round trip yields the sentinel
`datetime(1111, 1, 1)` instead of `t`.  The same pipeline does round-trip
correctly from year 2008 on, confirming the intent. -/
theorem timestamp_roundtrip_fails_for_year_2000 :
    validDateTime 2000 1 1 0 0 0 ∧
    acoem_datetime_to_timestamp ⟨2000, 1, 1, 0, 0, 0⟩ = [] ∧
    acoem_timestamp_to_datetime
        (fromBytesBE (acoem_datetime_to_timestamp ⟨2000, 1, 1, 0, 0, 0⟩)) =
      ⟨1111, 1, 1, 0, 0, 0⟩ ∧
    acoem_timestamp_to_datetime
        (fromBytesBE (acoem_datetime_to_timestamp ⟨2026, 10, 12, 13, 30, 45⟩)) =
      ⟨2026, 10, 12, 13, 30, 45⟩ := by
  refine ⟨by decide, by decide, by decide, by decide⟩

/-! ## Claim C3 - binary-dialect read termination -/

/-- Claim C3: the binary (acoem) read loop is claimed to accumulate chunks
until the buffer ends with the EOT byte 0x04; in the code the
`return rcvd` statement is inside the `while` body, so the function
returns after the first `recv` even though the buffer does not end with
0x04 (here: chunks `[2, 5]` then `[1, 4]` yield `[2, 5]`).  The legacy
branch, whose `return` is outside the loop, does accumulate until CRLF and
strips the terminator. -/
theorem tcpip_comm_acoem_returns_before_eot :
    tcpip_comm_acoem [[2, 5], [1, 4]] = some [2, 5] ∧
    List.isSuffixOf [4] [2, 5] = false ∧
    tcpip_comm_legacy [[65, 66], [13, 10]] = some [65, 66] := by
  refine ⟨rfl, by decide, by decide⟩

/-! ## Claim C7 - timestamp decode error reporting -/

/-- Claim C7 counterexample: for raw timestamp 0 the extracted fields
(month 0, day 0) are not a valid calendar date, yet
`_acoem_timestamp_to_datetime` does not report any error: it catches the
`ValueError` and returns the sentinel `datetime(1111, 1, 1)`. -/
theorem timestamp_decode_sentinel_cex :
    ¬ validDateTime 2000 0 0 0 0 0 ∧
    acoem_timestamp_to_datetime 0 = ⟨1111, 1, 1, 0, 0, 0⟩ := by
  refine ⟨by decide, by decide⟩

/-- Claim C7 (amended): for every 32-bit input whose extracted bit fields
do not form a valid calendar date, `_acoem_timestamp_to_datetime` catches
the constructor's `ValueError` and returns the sentinel
`datetime(1111, 1, 1)` - the caller never sees an error. -/
theorem timestamp_decode_invalid_returns_sentinel (t : Nat)
    (h : ¬ validDateTime (t / 2 ^ 26 + 2000) (t / 2 ^ 22 % 16)
      (t / 2 ^ 17 % 32) (t / 2 ^ 12 % 32) (t / 2 ^ 6 % 64) (t % 64)) :
    acoem_timestamp_to_datetime t = ⟨1111, 1, 1, 0, 0, 0⟩ := by
  have e26 : t / 64 / 64 / 32 / 32 / 16 = t / 2 ^ 26 := by
    rw [Nat.div_div_eq_div_mul, Nat.div_div_eq_div_mul, Nat.div_div_eq_div_mul,
      Nat.div_div_eq_div_mul]
    norm_num
  have e22 : t / 64 / 64 / 32 / 32 = t / 2 ^ 22 := by
    rw [Nat.div_div_eq_div_mul, Nat.div_div_eq_div_mul, Nat.div_div_eq_div_mul]
    norm_num
  have e17 : t / 64 / 64 / 32 = t / 2 ^ 17 := by
    rw [Nat.div_div_eq_div_mul, Nat.div_div_eq_div_mul]
    norm_num
  have e12 : t / 64 / 64 = t / 2 ^ 12 := by
    rw [Nat.div_div_eq_div_mul]
    norm_num
  have e6 : t / 64 = t / 2 ^ 6 := by norm_num
  simp only [acoem_timestamp_to_datetime]
  rw [e26, e22, e17, e12, e6]
  rw [if_neg h]

/-- Claim C7 witness: the amended theorem applied at raw timestamp 0. -/
theorem timestamp_decode_invalid_returns_sentinel_witness :
    acoem_timestamp_to_datetime 0 = ⟨1111, 1, 1, 0, 0, 0⟩ :=
  timestamp_decode_invalid_returns_sentinel 0 (by decide)

/-! ## Claim C8 - legacy operating-state mapping -/

/-- Claim C8 counterexample: for the response string `"001"` the mapping
lookup raises `KeyError`, but `get_current_operation` catches it and
returns the default error code 9 to the caller instead of failing. -/
theorem legacy_operation_unknown_cex :
    get_current_operation_legacy ['0', '0', '1'] = 9 ∧
    legacy_operation_map ['0', '0', '1'] = none := by
  refine ⟨by decide, by decide⟩

/-- Claim C8 (amended): under the legacy protocol `get_current_operation`
returns 0 (Normal) for `"000"`, 2 (SpanCheck) for `"016"` and
1 (ZeroCheck) for `"032"`; for every other response string the `KeyError`
from the mapping is caught by the handler, which logs it and returns the
documented error code 9 rather than propagating an error. -/
theorem get_current_operation_legacy_mapping (s : List Char) :
    (s = ['0', '0', '0'] → get_current_operation_legacy s = 0) ∧
    (s = ['0', '1', '6'] → get_current_operation_legacy s = 2) ∧
    (s = ['0', '3', '2'] → get_current_operation_legacy s = 1) ∧
    (s ≠ ['0', '0', '0'] → s ≠ ['0', '1', '6'] → s ≠ ['0', '3', '2'] →
      get_current_operation_legacy s = 9) := by
  refine ⟨?_, ?_, ?_, ?_⟩
  · intro h; subst h; decide
  · intro h; subst h; decide
  · intro h; subst h; decide
  · intro h1 h2 h3
    unfold get_current_operation_legacy legacy_operation_map
    rw [if_neg h1, if_neg h2, if_neg h3]

/-- Claim C8 witness: the amended mapping evaluated at `"016"` (known) and
`"001"` (unknown). -/
theorem get_current_operation_legacy_mapping_witness :
    get_current_operation_legacy ['0', '1', '6'] = 2 ∧
    get_current_operation_legacy ['0', '0', '1'] = 9 :=
  ⟨(get_current_operation_legacy_mapping ['0', '1', '6']).2.1 rfl,
   (get_current_operation_legacy_mapping ['0', '0', '1']).2.2.2
     (by decide) (by decide) (by decide)⟩

/-! ## Claim C9 - set_parameter_value payload encoding -/

/-- Claim C9 counterexample: for value 256 (well inside the claimed u32
range) `set_values` never builds a frame: `bytes([0, 0, 0, 256])` raises
`ValueError`, caught by the handler - whereas the claimed frame (message
data `parameter_id` big-endian followed by 256 big-endian) does exist and
is the one `_acoem_construct_message` would produce for payload
`[0, 0, 1, 0]`. -/
theorem set_values_payload_cex :
    set_values_message 5 4035 256 = none ∧
    acoem_construct_message 5 5 4035 [0, 0, 1, 0] =
      some [2, 5, 5, 3, 0, 8, 0, 0, 15, 195, 0, 0, 1, 0, 196, 4] := by
  refine ⟨by decide, by decide⟩

/-- Claim C9 (amended): under the binary protocol `set_values` builds the
command-5 frame with message data = 4-byte big-endian parameter id
followed by the 4-byte big-endian value only for values below 256
(`bytes([0, 0, 0, value])`); for any larger value the payload construction
raises `ValueError`, caught by the handler, and no frame is built.  Under
the legacy protocol the raised `Warning("Not implemented.")` is caught by
the same handler, so no frame is sent and `[]` is returned. -/
theorem set_values_payload_encoding (sid pid value : Nat) :
    (value < 256 →
      set_values_frame Protocol.acoem sid pid value =
        acoem_construct_message sid 5 pid (toBytesBE 4 value)) ∧
    (256 ≤ value → set_values_frame Protocol.acoem sid pid value = none) ∧
    set_values_frame Protocol.legacy sid pid value = none := by
  refine ⟨?_, ?_, rfl⟩
  · intro h
    show set_values_message sid pid value = _
    unfold set_values_message byteSeq
    rw [toBytesBE_four_small value h]
    rw [if_pos (by simp [h])]
  · intro h
    show set_values_message sid pid value = none
    unfold set_values_message byteSeq
    rw [if_neg (by simp; omega)]

/-- Claim C9 witness: the amended theorem applied at serial id 5,
parameter 4035, value 1. -/
theorem set_values_payload_encoding_witness :
    set_values_frame Protocol.acoem 5 4035 1 =
      acoem_construct_message 5 5 4035 (toBytesBE 4 1) ∧
    set_values_frame Protocol.legacy 5 4035 1 = none :=
  ⟨(set_values_payload_encoding 5 4035 1).1 (by decide),
   (set_values_payload_encoding 5 4035 1).2.2⟩

/-! ## The record loop of the logged-data decoder -/

theorem stepRecord_some (keys : List Nat) (cur : OutRec) (rec : Bytes)
    (rt : Nat) (hrt : rec[0]? = some rt) :
    stepRecord keys cur rec =
      (if rt = 0 then
        match decodeDataRecordWith (if rt = 1 then headerKeysOf rec else keys)
            rec with
        | none => none
        | some r =>
          some (if rt = 1 then headerKeysOf rec else keys, OutRec.dataRec r)
      else some (if rt = 1 then headerKeysOf rec else keys, cur)) := by
  rw [stepRecord, hrt]

theorem stepRecord_header (keys : List Nat) (cur : OutRec) (rec : Bytes)
    (keys1 : List Nat) (cur1 : OutRec)
    (hrt : rec[0]? = some 1)
    (hstep : stepRecord keys cur rec = some (keys1, cur1)) :
    keys1 = headerKeysOf rec ∧ cur1 = cur := by
  rw [stepRecord_some keys cur rec 1 hrt] at hstep
  simp at hstep
  exact ⟨hstep.1.symm, hstep.2.symm⟩

theorem stepRecord_data (keys : List Nat) (cur : OutRec) (rec : Bytes)
    (keys1 : List Nat) (cur1 : OutRec)
    (hrt : rec[0]? = some 0)
    (hstep : stepRecord keys cur rec = some (keys1, cur1)) :
    keys1 = keys ∧
    ∃ r, decodeDataRecordWith keys rec = some r ∧ cur1 = OutRec.dataRec r := by
  rw [stepRecord_some keys cur rec 0 hrt] at hstep
  rcases hdec : decodeDataRecordWith keys rec with _ | r
  · simp [hdec] at hstep
  · simp [hdec] at hstep
    exact ⟨hstep.1.symm, r, rfl, hstep.2.symm⟩

theorem stepRecord_foldKeys (keys : List Nat) (cur : OutRec) (rec : Bytes)
    (keys1 : List Nat) (cur1 : OutRec)
    (hstep : stepRecord keys cur rec = some (keys1, cur1)) :
    (if rec[0]? = some 1 then headerKeysOf rec else keys) = keys1 := by
  rcases hrt : rec[0]? with _ | rt
  · rw [stepRecord, hrt] at hstep
    simp at hstep
  by_cases h1 : rt = 1
  · subst h1
    rw [if_pos rfl]
    exact (stepRecord_header keys cur rec keys1 cur1 hrt hstep).1.symm
  · rw [if_neg (by simp [h1])]
    by_cases h0 : rt = 0
    · subst h0
      exact (stepRecord_data keys cur rec keys1 cur1 hrt hstep).1.symm
    · rw [stepRecord_some keys cur rec rt hrt] at hstep
      rw [if_neg h0, if_neg h1] at hstep
      simp at hstep
      exact hstep.1

/-- Structure of the output of the record loop: one output element per
record; a header record repeats the previous element (the initial `data`
binding for the very first record); a data record contributes its own
decoded dict, decoded against the key list accumulated over the preceding
records. -/
theorem decodeRecords_spec (rs : List Bytes) :
    ∀ keys cur out, decodeRecords keys cur rs = some out →
      out.length = rs.length ∧
      ∀ i, (hi : i < rs.length) →
        ((rs.get ⟨i, hi⟩)[0]? = some 1 →
          (cur :: out)[i + 1]? = (cur :: out)[i]?) ∧
        ((rs.get ⟨i, hi⟩)[0]? = some 0 →
          ∃ r, decodeDataRecordWith (foldKeys keys (rs.take i))
              (rs.get ⟨i, hi⟩) = some r ∧
            (cur :: out)[i + 1]? = some (OutRec.dataRec r)) := by
  induction rs with
  | nil =>
    intro keys cur out h
    rw [decodeRecords] at h
    cases h
    exact ⟨rfl, fun i hi => absurd hi (by simp)⟩
  | cons rec rest ih =>
    intro keys cur out h
    rw [decodeRecords] at h
    rcases hstep : stepRecord keys cur rec with _ | p
    · rw [hstep] at h
      cases h
    rcases p with ⟨keys1, cur1⟩
    rw [hstep] at h
    replace h : (match decodeRecords keys1 cur1 rest with
      | none => none
      | some tail => some (cur1 :: tail)) = some out := h
    rcases htail : decodeRecords keys1 cur1 rest with _ | tail
    · rw [htail] at h
      cases h
    rw [htail] at h
    have hout : out = cur1 :: tail := by cases h; rfl
    subst hout
    obtain ⟨hlen, hrel⟩ := ih keys1 cur1 tail htail
    refine ⟨by simpa using hlen, ?_⟩
    intro i hi
    match i with
    | 0 =>
      constructor
      · intro hh
        obtain ⟨-, hcur⟩ := stepRecord_header keys cur rec keys1 cur1 hh hstep
        simp [hcur]
      · intro hh
        obtain ⟨-, r, hdec, hcur⟩ := stepRecord_data keys cur rec keys1 cur1 hh hstep
        exact ⟨r, by simpa using hdec, by simp [hcur]⟩
    | i + 1 =>
      have hi1 : i < rest.length := by simpa using hi
      have hget : (rec :: rest).get ⟨i + 1, hi⟩ = rest.get ⟨i, hi1⟩ := rfl
      have hkeys : foldKeys keys ((rec :: rest).take (i + 1)) =
          foldKeys keys1 (rest.take i) := by
        rw [List.take_succ_cons]
        unfold foldKeys
        rw [List.foldl_cons]
        rw [stepRecord_foldKeys keys cur rec keys1 cur1 hstep]
      obtain ⟨hrel1, hrel0⟩ := hrel i hi1
      constructor
      · intro hh
        rw [hget] at hh
        have := hrel1 hh
        simpa using this
      · intro hh
        rw [hget] at hh
        obtain ⟨r, hdec, hpos⟩ := hrel0 hh
        refine ⟨r, ?_, by simpa using hpos⟩
        rw [hget, hkeys]
        exact hdec

/-! ## Claim C2 - logged-data output composition -/

/-- Claim C2 counterexample: (a) for a response whose command byte is 5
(not 7) the decoder returns the one-element list `[dict()]`, not an empty
sequence; (b) for a command-7 response holding one header record and one
data record the output has three elements - the seeded empty dict, the
element appended while processing the header record (still the empty
dict), and the decoded data record - so header records do contribute
elements and the data record is not at its input-order position. -/
theorem decode_logged_data_output_composition_cex :
    acoem_decode_logged_data [0, 0, 5] = some [OutRec.emptyDict] ∧
    some [OutRec.emptyDict] ≠ some ([] : List OutRec) ∧
    acoem_decode_logged_data respHeaderData =
      some [OutRec.emptyDict, OutRec.emptyDict, OutRec.dataRec recHeaderData] ∧
    (recordsOf respHeaderData).length = 2 := by
  refine ⟨by decide, by decide, by decide, by decide⟩

/-- Claim C2 (amended): for a response whose command byte at offset 2 is
not 7, `_acoem_decode_logged_data` returns the one-element sequence
holding the empty record.  For a command-7 response (when decoding
succeeds) the output is the seeded empty record followed by exactly one
element per partitioned record, in input order: the element for a data
record (type byte 0) is that record's decoded mapping, decoded against the
keys of the most recent header record, while the element for a header
record (type byte 1) repeats the preceding output element instead of
contributing nothing. -/
theorem decode_logged_data_output_composition (response : Bytes) (c : Nat)
    (out : List OutRec)
    (hc : response[2]? = some c)
    (hout : acoem_decode_logged_data response = some out) :
    (c ≠ 7 → out = [OutRec.emptyDict]) ∧
    (c = 7 →
      out.length = numberOfRecordsOf response + 1 ∧
      out[0]? = some OutRec.emptyDict ∧
      ∀ i, (hi : i < (recordsOf response).length) →
        (((recordsOf response).get ⟨i, hi⟩)[0]? = some 1 →
          out[i + 1]? = out[i]?) ∧
        (((recordsOf response).get ⟨i, hi⟩)[0]? = some 0 →
          ∃ r, decodeDataRecordWith (activeKeys ((recordsOf response).take i))
              ((recordsOf response).get ⟨i, hi⟩) = some r ∧
            out[i + 1]? = some (OutRec.dataRec r))) := by
  rw [acoem_decode_logged_data, hc] at hout
  replace hout : (if c = 7 then
      match decodeRecords [] OutRec.emptyDict (recordsOf response) with
      | none => none
      | some out0 => some (OutRec.emptyDict :: out0)
    else some [OutRec.emptyDict]) = some out := hout
  by_cases h7 : c = 7
  · rw [if_pos h7] at hout
    rcases hrec : decodeRecords [] OutRec.emptyDict (recordsOf response)
      with _ | out0
    · rw [hrec] at hout
      cases hout
    rw [hrec] at hout
    have hout2 : out = OutRec.emptyDict :: out0 := by cases hout; rfl
    subst hout2
    obtain ⟨hlen, hrel⟩ := decodeRecords_spec (recordsOf response) [] OutRec.emptyDict out0 hrec
    refine ⟨fun hne => absurd h7 hne, fun _ => ⟨?_, by simp, ?_⟩⟩
    · rw [← recordsOf_length response]
      simp [hlen]
    · intro i hi
      exact hrel i hi
  · rw [if_neg h7] at hout
    have hout2 : out = [OutRec.emptyDict] := by cases hout; rfl
    exact ⟨fun _ => hout2, fun h => absurd h h7⟩

/-- Claim C2 witness: the amended theorem applied to the concrete
header-plus-data response; the output indeed has
`number_of_records + 1 = 3` elements and starts with the empty record. -/
theorem decode_logged_data_output_composition_witness :
    [OutRec.emptyDict, OutRec.emptyDict,
        OutRec.dataRec recHeaderData].length =
      numberOfRecordsOf respHeaderData + 1 ∧
    [OutRec.emptyDict, OutRec.emptyDict,
        OutRec.dataRec recHeaderData][0]? = some OutRec.emptyDict :=
  ⟨(((decode_logged_data_output_composition respHeaderData 7
      [OutRec.emptyDict, OutRec.emptyDict, OutRec.dataRec recHeaderData]
      (by decide) (by decide)).2 rfl)).1,
   (((decode_logged_data_output_composition respHeaderData 7
      [OutRec.emptyDict, OutRec.emptyDict, OutRec.dataRec recHeaderData]
      (by decide) (by decide)).2 rfl)).2.1⟩

/-! ## Claim C10 - leading empty element in decoded logged data -/

/-- Claim C10 counterexample: the claim quantifies over every byte input,
but for the empty input `_acoem_decode_logged_data` does not return a list
at all - `response[2]` raises `IndexError`, which the method does not
catch. -/
theorem decode_logged_data_leading_empty_cex :
    acoem_decode_logged_data [] = none ∧
    ¬ ∃ out : List OutRec, acoem_decode_logged_data [] = some out := by
  refine ⟨rfl, ?_⟩
  rintro ⟨out, h⟩
  rw [show acoem_decode_logged_data [] = none from rfl] at h
  cases h

/-- Claim C10 (amended): for every byte input on which
`_acoem_decode_logged_data` returns without raising, the returned list is
non-empty and its first element is the seeded empty mapping; and for a
command-7 response the record decoded from the i-th partitioned record,
when that record is a data record, appears at output position i+1, so a
positional consumer sees one spurious leading entry. -/
theorem decode_logged_data_leading_empty (response : Bytes)
    (out : List OutRec)
    (hout : acoem_decode_logged_data response = some out) :
    out ≠ [] ∧ out[0]? = some OutRec.emptyDict ∧
    (∀ c, response[2]? = some c → c = 7 →
      ∀ i, (hi : i < (recordsOf response).length) →
        ((recordsOf response).get ⟨i, hi⟩)[0]? = some 0 →
        ∃ r, out[i + 1]? = some (OutRec.dataRec r)) := by
  rcases hc : response[2]? with _ | c
  · rw [acoem_decode_logged_data, hc] at hout
    cases hout
  rw [acoem_decode_logged_data, hc] at hout
  replace hout : (if c = 7 then
      match decodeRecords [] OutRec.emptyDict (recordsOf response) with
      | none => none
      | some out0 => some (OutRec.emptyDict :: out0)
    else some [OutRec.emptyDict]) = some out := hout
  by_cases h7 : c = 7
  · rw [if_pos h7] at hout
    rcases hrec : decodeRecords [] OutRec.emptyDict (recordsOf response)
      with _ | out0
    · rw [hrec] at hout
      cases hout
    rw [hrec] at hout
    have hout2 : out = OutRec.emptyDict :: out0 := by cases hout; rfl
    subst hout2
    obtain ⟨-, hrel⟩ := decodeRecords_spec (recordsOf response) [] OutRec.emptyDict out0 hrec
    refine ⟨by simp, by simp, ?_⟩
    intro c2 hc2 _ i hi hdata
    obtain ⟨r, -, hpos⟩ := (hrel i hi).2 hdata
    exact ⟨r, hpos⟩
  · rw [if_neg h7] at hout
    have hout2 : out = [OutRec.emptyDict] := by cases hout; rfl
    subst hout2
    refine ⟨by simp, by simp, ?_⟩
    intro c2 hc2 h72
    cases hc2
    exact absurd h72 h7

/-- Claim C10 witness: the amended theorem applied to a command-7 response
with zero records; the output is exactly the seeded empty dict. -/
theorem decode_logged_data_leading_empty_witness :
    ([OutRec.emptyDict] : List OutRec) ≠ [] ∧
    ([OutRec.emptyDict] : List OutRec)[0]? = some OutRec.emptyDict :=
  ⟨(decode_logged_data_leading_empty [0, 0, 7, 0, 0, 0, 0, 0]
      [OutRec.emptyDict] (by decide)).1,
   (decode_logged_data_leading_empty [0, 0, 7, 0, 0, 0, 0, 0]
      [OutRec.emptyDict] (by decide)).2.1⟩

/-! ## Claim C5 - logged-data record partitioning -/

/-- Claim C5: `number_of_records` is the truncating integer division of
`message_length` by `items_per_record` (a partial trailing record is
silently dropped, never an error), and record slice i holds exactly the
response-body bytes from offset `i*items_per_record*4` up to but excluding
`(i+1)*items_per_record*4 - 1`: each slice is one byte shorter than the
record's nominal window. -/
theorem logged_data_record_partitioning (response : Bytes) (i : Nat)
    (hi : i < numberOfRecordsOf response) :
    numberOfRecordsOf response * itemsPerRecordOf response ≤
      messageLengthOf response ∧
    messageLengthOf response <
      (numberOfRecordsOf response + 1) * itemsPerRecordOf response ∧
    ∃ rec, (recordsOf response)[i]? = some rec ∧
      ∀ j, rec[j]? =
        if j < itemsPerRecordOf response * 4 - 1
        then (responseBodyOf response)[i * (itemsPerRecordOf response * 4) + j]?
        else none := by
  have hw : 0 < itemsPerRecordOf response := by
    unfold itemsPerRecordOf
    omega
  refine ⟨?_, ?_, ?_⟩
  · exact Nat.div_mul_le_self (messageLengthOf response) (itemsPerRecordOf response)
  · calc messageLengthOf response
        = itemsPerRecordOf response * (numberOfRecordsOf response) +
            messageLengthOf response % itemsPerRecordOf response :=
          (Nat.div_add_mod _ _).symm
      _ < itemsPerRecordOf response * (numberOfRecordsOf response) +
            itemsPerRecordOf response := by
          have := Nat.mod_lt (messageLengthOf response) hw
          omega
      _ = (numberOfRecordsOf response + 1) * itemsPerRecordOf response := by
          ring
  · refine ⟨_, recordsOf_getElem? response i hi, ?_⟩
    intro j
    rw [pySlice_getElem?]
    have hmul : (i + 1) * (itemsPerRecordOf response * 4) =
        i * (itemsPerRecordOf response * 4) + itemsPerRecordOf response * 4 := by
      ring
    rw [hmul]
    have hsub : ∀ A w : Nat, A + w - 1 - A = w - 1 := by
      intro A w
      omega
    rw [hsub (i * (itemsPerRecordOf response * 4)) (itemsPerRecordOf response * 4)]

/-- Claim C5 witness: the partitioning theorem applied to a concrete
response with a 16-byte body, zero declared fields per record and message
length 4, hence one record whose slice is the first 15 body bytes. -/
theorem logged_data_record_partitioning_witness :
    numberOfRecordsOf respOneRecord * itemsPerRecordOf respOneRecord ≤
      messageLengthOf respOneRecord ∧
    messageLengthOf respOneRecord <
      (numberOfRecordsOf respOneRecord + 1) * itemsPerRecordOf respOneRecord ∧
    ∃ rec, (recordsOf respOneRecord)[0]? = some rec ∧
      ∀ j, rec[j]? =
        if j < itemsPerRecordOf respOneRecord * 4 - 1
        then (responseBodyOf respOneRecord)[0 * (itemsPerRecordOf respOneRecord * 4) + j]?
        else none :=
  logged_data_record_partitioning respOneRecord 0 (by decide)

/-! ## Claim C6 - response decoding -/

theorem rangeStep_four_getElem? (start stop i count : Nat)
    (hcount : (stop - start + 4 - 1) / 4 = count) (hi : i < count) :
    (rangeStep start stop 4)[i]? = some (start + i * 4) := by
  unfold rangeStep
  rw [hcount, List.getElem?_map, List.getElem?_range hi]
  rfl

theorem acoem_decode_response_length (response : Bytes) :
    (acoem_decode_response response).length = responseLengthOf response := by
  unfold acoem_decode_response rangeStep
  rw [List.length_map, List.length_map, List.length_range]
  omega

/-- Claim C6: `_acoem_decode_response` reads the word count from bytes
[4:6) (big-endian byte count divided by 4) and returns exactly that many
integers; for a response long enough to hold them, item i is the
big-endian 32-bit integer at byte offset 6 + 4*i; and the decoder never
reads the trailing checksum byte at offset `6 + 4*count`, so two responses
of equal length differing only there decode identically. -/
theorem acoem_decode_response_spec (r1 r2 : Bytes)
    (hlen : r1.length = r2.length)
    (hagree : ∀ j, j < r1.length → j ≠ 6 + 4 * responseLengthOf r1 →
      r1[j]? = r2[j]?) :
    (acoem_decode_response r1).length = responseLengthOf r1 ∧
    (∀ i, i < responseLengthOf r1 →
      6 + 4 * responseLengthOf r1 ≤ r1.length →
      (acoem_decode_response r1)[i]? =
        some (r1.getD (6 + 4 * i) 0 * 16777216 + r1.getD (6 + 4 * i + 1) 0 * 65536 +
          r1.getD (6 + 4 * i + 2) 0 * 256 + r1.getD (6 + 4 * i + 3) 0)) ∧
    acoem_decode_response r1 = acoem_decode_response r2 := by
  refine ⟨acoem_decode_response_length r1, ?_, ?_⟩
  · intro i hi hbound
    unfold acoem_decode_response
    rw [List.getElem?_map]
    rw [rangeStep_four_getElem? 6 ((responseLengthOf r1 + 1) * 4 + 2) i
      (responseLengthOf r1) (by omega) hi]
    rw [Option.map_some']
    have hslice : pySlice r1 (6 + i * 4) (6 + i * 4 + 4) =
        [r1.getD (6 + i * 4) 0, r1.getD (6 + i * 4 + 1) 0,
         r1.getD (6 + i * 4 + 2) 0, r1.getD (6 + i * 4 + 3) 0] :=
      pySlice_four r1 (6 + i * 4) (by omega)
    rw [hslice, fromBytesBE_four]
    have e1 : 6 + i * 4 = 6 + 4 * i := by ring
    rw [e1]
  · have hL : responseLengthOf r1 = responseLengthOf r2 := by
      unfold responseLengthOf
      rw [pySlice_congr r1 r2 4 6 hlen]
      intro j hj4 hj6 hjl
      exact hagree j hjl (by omega)
    unfold acoem_decode_response
    rw [← hL]
    apply List.map_congr_left
    intro x hx
    unfold rangeStep at hx
    simp only [List.mem_map, List.mem_range] at hx
    obtain ⟨k, hk, hxk⟩ := hx
    have hkL : k < responseLengthOf r1 := by omega
    subst hxk
    rw [pySlice_congr r1 r2 (6 + k * 4) (6 + k * 4 + 4) hlen]
    intro j hj1 hj2 hjl
    apply hagree j hjl
    omega

/-- Claim C6 witness: a one-word response decoding to `[42]`, compared
with a copy whose checksum byte (offset 10) is changed from 99 to 7; the
decoder output is identical. -/
theorem acoem_decode_response_spec_witness :
    (acoem_decode_response [2, 5, 4, 3, 0, 4, 0, 0, 0, 42, 99, 4]).length =
      responseLengthOf [2, 5, 4, 3, 0, 4, 0, 0, 0, 42, 99, 4] ∧
    (∀ i, i < responseLengthOf [2, 5, 4, 3, 0, 4, 0, 0, 0, 42, 99, 4] →
      6 + 4 * responseLengthOf [2, 5, 4, 3, 0, 4, 0, 0, 0, 42, 99, 4] ≤
        ([2, 5, 4, 3, 0, 4, 0, 0, 0, 42, 99, 4] : Bytes).length →
      (acoem_decode_response [2, 5, 4, 3, 0, 4, 0, 0, 0, 42, 99, 4])[i]? =
        some (([2, 5, 4, 3, 0, 4, 0, 0, 0, 42, 99, 4] : Bytes).getD (6 + 4 * i) 0 * 16777216 +
          ([2, 5, 4, 3, 0, 4, 0, 0, 0, 42, 99, 4] : Bytes).getD (6 + 4 * i + 1) 0 * 65536 +
          ([2, 5, 4, 3, 0, 4, 0, 0, 0, 42, 99, 4] : Bytes).getD (6 + 4 * i + 2) 0 * 256 +
          ([2, 5, 4, 3, 0, 4, 0, 0, 0, 42, 99, 4] : Bytes).getD (6 + 4 * i + 3) 0)) ∧
    acoem_decode_response [2, 5, 4, 3, 0, 4, 0, 0, 0, 42, 99, 4] =
      acoem_decode_response [2, 5, 4, 3, 0, 4, 0, 0, 0, 42, 7, 4] :=
  acoem_decode_response_spec
    [2, 5, 4, 3, 0, 4, 0, 0, 0, 42, 99, 4]
    [2, 5, 4, 3, 0, 4, 0, 0, 0, 42, 7, 4]
    (by decide)
    (by decide)

/-! ## Claim C4 - frame construction -/

/-- Claim C4: for every serial id and command byte, parameter id (u32) and
payload, `_acoem_construct_message` returns exactly
`[0x02, station_id, command, 0x03] ++ len(msg_data) 2-byte big-endian ++
msg_data ++ [checksum, 0x04]`, where `msg_data` is the 4-byte big-endian
parameter id (present only when the id is positive) followed by the
payload, and the checksum byte is the XOR of all preceding bytes. -/
theorem acoem_construct_message_spec (sid cmd pid : Nat) (payload : Bytes)
    (hsid : sid < 256) (hcmd : cmd < 256) (hpid : pid < 2 ^ 32)
    (hlen : 4 + payload.length < 2 ^ 16) :
    ∃ md : Bytes,
      md = (if 0 < pid
        then [pid / 16777216 % 256, pid / 65536 % 256, pid / 256 % 256, pid % 256]
        else []) ++ payload ∧
      acoem_construct_message sid cmd pid payload =
        some ([2, sid, cmd, 3, md.length / 256, md.length % 256] ++ md ++
          [checksum ([2, sid, cmd, 3, md.length / 256, md.length % 256] ++ md),
           4]) := by
  have hlen65 : 4 + payload.length < 65536 := by
    norm_num at hlen
    exact hlen
  have hbytes : byteSeq [2, sid, cmd, 3] = some [2, sid, cmd, 3] := by
    unfold byteSeq
    rw [if_pos (by simp [hsid, hcmd])]
  refine ⟨_, rfl, ?_⟩
  by_cases hp : 0 < pid
  · rw [if_pos hp]
    have hpb : to_bytes 4 pid =
        some [pid / 16777216 % 256, pid / 65536 % 256, pid / 256 % 256,
          pid % 256] := by
      unfold to_bytes
      rw [if_pos (by norm_num; omega), toBytesBE_four_eq]
    have hL : ([pid / 16777216 % 256, pid / 65536 % 256, pid / 256 % 256,
        pid % 256] ++ payload).length = 4 + payload.length := by
      simp
      omega
    have hlb : to_bytes 2 ([pid / 16777216 % 256, pid / 65536 % 256,
        pid / 256 % 256, pid % 256] ++ payload).length =
        some [([pid / 16777216 % 256, pid / 65536 % 256, pid / 256 % 256,
          pid % 256] ++ payload).length / 256,
          ([pid / 16777216 % 256, pid / 65536 % 256, pid / 256 % 256,
          pid % 256] ++ payload).length % 256] := by
      unfold to_bytes
      rw [if_pos (by rw [hL]; norm_num; omega), toBytesBE_two]
      rw [Nat.mod_eq_of_lt (by rw [hL]; omega)]
    simp only [acoem_construct_message, if_pos hp, hpb, hlb, hbytes,
      Option.some_bind]
    simp [List.append_assoc]
  · rw [if_neg hp]
    have hL : (([] : Bytes) ++ payload).length = payload.length := by
      simp
    have hlb : to_bytes 2 (([] : Bytes) ++ payload).length =
        some [(([] : Bytes) ++ payload).length / 256,
          (([] : Bytes) ++ payload).length % 256] := by
      unfold to_bytes
      rw [if_pos (by rw [hL]; norm_num; omega), toBytesBE_two]
      rw [Nat.mod_eq_of_lt (by rw [hL]; omega)]
    simp only [acoem_construct_message, if_neg hp, hlb, hbytes,
      Option.some_bind]
    simp [List.append_assoc]

/-- Claim C4 witness: the construction theorem applied at station id 5,
command 1, no parameter and empty payload: the frame is exactly
`[2, 5, 1, 3, 0, 0, 5, 4]` with checksum `2^5^1^3 = 5`. -/
theorem acoem_construct_message_spec_witness :
    acoem_construct_message 5 1 0 [] = some [2, 5, 1, 3, 0, 0, 5, 4] := by
  obtain ⟨md, hmd, h⟩ :=
    acoem_construct_message_spec 5 1 0 [] (by decide) (by decide) (by decide)
      (by decide)
  rw [h, hmd]
  decide

end Neph
